import Mathlib

/-!
Shallow embedding of the core of `backend/app/main.py` (a FastAPI service
turning a free-text "vibe" into ranked Spotify tracks and playlists),
together with proofs of the specification claims about it.

Conventions used throughout:
* Python floats are modelled as `ℚ` (every literal in the source is an
  exact decimal).
* Python strings are modelled as their character lists (`PyStr`); a Lean
  string literal `"x"` enters the model as `"x".data`.
* Python dicts are modelled as association lists `List (K × V)`; removal
  (`dict.pop`) is modelled as filtering the key out, and assignment
  (`d[k] = v`) as an upsert, both extensionally faithful because dict keys
  are unique.
* Network calls are modelled as oracle functions passed in as parameters;
  an oracle's answer carries the distinctions the code branches on
  (status 401, status 403, other error, parsed payload).
* Python truthiness on strings/options is modelled explicitly where the
  source relies on it (`not code`, `if af:`, `if content`).
-/

namespace Marina

/-- Python strings, as character lists. -/
abbrev PyStr := List Char

/-- Does the second list start with `needle`?  The prefix step of Python's
`in` and `startswith` operators. -/
def startsWithChars : PyStr → PyStr → Bool
  | [], _ => true
  | _ :: _, [] => false
  | a :: as, b :: bs => a == b && startsWithChars as bs

/-- Does `needle` occur as a contiguous run inside the second list?  Models
Python's `needle in hay` on strings (true for the empty needle, as in
Python). -/
def hasSubChars (needle : PyStr) : PyStr → Bool
  | [] => needle.isEmpty
  | l@(_ :: rest) => startsWithChars needle l || hasSubChars needle rest

/-- Python's `needle in hay` for strings. -/
def strContains (hay needle : PyStr) : Bool :=
  hasSubChars needle hay

/-- Python's `s.startswith(pre)`. -/
def strStartsWith (s pre : PyStr) : Bool :=
  startsWithChars pre s

/-- Python's `s.lower()` (ASCII case folding; every keyword the source
compares against is ASCII). -/
def pyLower (s : PyStr) : PyStr :=
  s.map Char.toLower

/-- Python's `s.strip()`: drop whitespace from both ends. -/
def pyTrim (s : PyStr) : PyStr :=
  ((s.dropWhile Char.isWhitespace).reverse.dropWhile Char.isWhitespace).reverse

/-- Python's `s.split(sep)` for a one-character separator (the source only
splits on `","`).  `"".split(",") = [""]`, as in Python. -/
def pySplitChar (sep : Char) : PyStr → List PyStr
  | [] => [[]]
  | c :: cs =>
    if c == sep then [] :: pySplitChar sep cs
    else
      match pySplitChar sep cs with
      | [] => [[c]]
      | g :: gs => (c :: g) :: gs

/-- Python's `s.replace(pat, "")` for a one-character pattern (the source
only removes `'"'`): drop every occurrence. -/
def pyRemoveAll (pat : Char) (s : PyStr) : PyStr :=
  s.filter (fun c => !(c == pat))

/-- `era` component of `VibeRules` (class `Era` in main.py, fields `frm`/`to`). -/
structure Era where
  frm : Option Int := none
  «to» : Option Int := none
deriving DecidableEq, Repr

/-- Output of vibe parsing (class `VibeRules` in main.py). -/
structure VibeRules where
  includeGenres : List PyStr := []
  excludeGenres : List PyStr := []
  minPopularity : Option Int := none
  maxPopularity : Option Int := none
  era : Era := {}
  explicitAllowed : Bool := true
deriving DecidableEq, Repr

/-- Models Python's `list(set(xs))` for the genre list of `heuristic_parse`.
The genre lists built there never contain duplicates (each of "lofi"/"edm" is
appended at most once), so any duplicate-removal is a permutation of the
input; set iteration order is implementation-defined in CPython and no claim
depends on the order of a non-empty result, only on emptiness. -/
def pySetList (l : List PyStr) : List PyStr :=
  l.dedup

/-- `heuristic_parse(vibe, explicit_allowed)` from main.py lines 131-146. -/
def heuristic_parse (vibe : PyStr) (explicit_allowed : Bool := true) : VibeRules :=
  let t := pyLower vibe
  let genres : List PyStr :=
    (if [ "chill".data, "lofi".data, "study".data, "focus".data].any
        (fun k => strContains t k)
      then ["lofi".data] else [])
    ++ (if strContains t "party".data || strContains t "dance".data
        then ["edm".data] else [])
  let era : Era :=
    if strContains t "2010".data || strContains t "2010s".data then
      ⟨some 2010, some 2019⟩
    else {}
  let ea := if strContains t "no explicit".data then false else explicit_allowed
  { includeGenres := if (pySetList genres).isEmpty then ["pop".data] else pySetList genres
    excludeGenres := []
    minPopularity := none
    maxPopularity := none
    era := era
    explicitAllowed := ea }

/-- Payload shape the LLM branch of `/vibe/parse_ai` reads out of the model's
JSON answer (`data.get(...)` lookups); `none` models a missing key. -/
structure LLMVibeData where
  includeGenres : Option (List PyStr) := none
  excludeGenres : Option (List PyStr) := none
  minPopularity : Option Int := none
  maxPopularity : Option Int := none
  eraFrm : Option Int := none
  eraTo : Option Int := none
  explicitAllowed : Option Bool := none

/-- Python truthiness of an optional string (`not GROQ_API_KEY` is true for
both an unset and an empty environment variable). -/
def keyFalsy : Option PyStr → Bool
  | none => true
  | some s => s.isEmpty

/-- `vibe_parse_ai` from main.py lines 152-186.  `key` is `GROQ_API_KEY`;
`llm` is the Groq chat-completion call, whose `.error` case models any raised
exception (`raise_for_status`, JSON decode) — the endpoint has no handler for
those, so they propagate.  `llm` returning `.ok none` models an empty
`content` string (`json.loads(content) if content else {}`). -/
def vibe_parse_ai (key : Option PyStr)
    (llm : PyStr → Bool → Except Unit (Option LLMVibeData))
    (vibeText : PyStr) (explicitAllowed : Bool) : Except Unit VibeRules :=
  if keyFalsy key then .ok (heuristic_parse vibeText explicitAllowed)
  else
    match llm vibeText explicitAllowed with
    | .error e => .error e
    | .ok content =>
      let data : LLMVibeData := content.getD {}
      .ok { includeGenres := data.includeGenres.getD []
            excludeGenres := data.excludeGenres.getD []
            minPopularity := data.minPopularity
            maxPopularity := data.maxPopularity
            era := ⟨data.eraFrm, data.eraTo⟩
            explicitAllowed := data.explicitAllowed.getD true }

/-- Target audio profile (dict with keys `target_energy`, `target_valence`,
`target_danceability`). -/
structure Profile where
  target_energy : ℚ
  target_valence : ℚ
  target_danceability : ℚ
deriving DecidableEq, Repr

/-- `target_audio_profile(vibe_text)` from main.py lines 209-217.  Each
matching rule's `prof.update(...)` overwrites exactly the keys it names,
in source order. -/
def target_audio_profile (vibe_text : PyStr) : Profile :=
  let t := pyLower vibe_text
  let prof : Profile := ⟨0.5, 0.5, 0.5⟩
  let prof :=
    if strContains t "night drive".data || strContains t "moody".data then
      { prof with target_energy := 0.55, target_valence := 0.35, target_danceability := 0.6 }
    else prof
  let prof :=
    if strContains t "chill".data || strContains t "lofi".data then
      { prof with target_energy := 0.30, target_valence := 0.50, target_danceability := 0.5 }
    else prof
  let prof :=
    if strContains t "party".data || strContains t "dance".data then
      { prof with target_energy := 0.80, target_valence := 0.70, target_danceability := 0.8 }
    else prof
  let prof :=
    if strContains t "happy".data then { prof with target_valence := 0.80 } else prof
  prof

/-- An audio-feature object for one track, as used by `score_track`:
`af.get("energy", 0.5)` etc., `none` modelling a missing key.  A value of
`some f` corresponds to a non-empty feature dict (the only ones ever stored,
thanks to the `if x and x.get("id")` guard in `fetch_audio_features`), so
Python's `if af:` is `true` exactly on `some`. -/
structure AF where
  energy : Option ℚ := none
  valence : Option ℚ := none
  danceability : Option ℚ := none
deriving DecidableEq, Repr

/-- A resolved candidate track (the dicts built in `vibe_generate_llm`,
main.py lines 360-367); only the fields the claims touch are kept. -/
structure Track where
  id : PyStr
  uri : PyStr := []
  name : PyStr := []
  artist : PyStr := []
deriving DecidableEq, Repr

/-- The ranking context `ctx` built in `vibe_generate_llm` lines 378-382:
`top_artists` and `liked_artists` are Python sets of lower-cased names,
modelled as lists used only through membership. -/
structure Ctx where
  top_artists : List PyStr
  liked_artists : List PyStr
  profile : Profile

/-- `score_track(t, af, ctx)` from main.py lines 219-230. -/
def score_track (t : Track) (af : Option AF) (ctx : Ctx) : ℚ :=
  let artist_names := (pySplitChar ',' t.artist).map (fun a => pyLower (pyTrim a))
  let s : ℚ := 0
  let s := if artist_names.any (fun a => ctx.top_artists.contains a) then s + 2 else s
  let s := if artist_names.any (fun a => ctx.liked_artists.contains a) then s + 1.5 else s
  match af with
  | none => s
  | some f =>
    let pe := ctx.profile.target_energy
    let pv := ctx.profile.target_valence
    let pd := ctx.profile.target_danceability
    s + (1 - |f.energy.getD 0.5 - pe|) + (1 - |f.valence.getD 0.5 - pv|)
      + (1 - |f.danceability.getD 0.5 - pd|)

/-! ### OAuth callback (`/auth/callback`, main.py lines 69-94) -/

/-- One `PKCE_STORE` entry: `{"verifier": ..., "ts": ...}`. -/
structure PkceEntry where
  verifier : PyStr
  ts : ℚ := 0
deriving DecidableEq, Repr

/-- Token-endpoint answer used by `auth_callback`
(`{access_token, refresh_token?, expires_in?}`). -/
structure Tokens where
  access_token : PyStr
  refresh_token : Option PyStr := none
  expires_in : Option ℚ := none
deriving DecidableEq, Repr

/-- Answer of the `/v1/me` profile fetch. -/
structure SpotifyUser where
  id : PyStr
  display_name : Option PyStr := none
deriving DecidableEq, Repr

/-- One `TOKEN_STORE` entry (main.py lines 88-93). -/
structure TokenRec where
  access_token : PyStr
  refresh_token : Option PyStr := none
  exp_ts : ℚ := 0
  user_id : PyStr := []
  display_name : Option PyStr := none
deriving DecidableEq, Repr

/-- How `/auth/callback` can fail: `invalidState` is the
`HTTPException(400, "invalid state or code")` raise; `upstream` is any
unhandled exception from the token exchange or the profile fetch
(`raise_for_status`), which FastAPI reports as a 500. -/
inductive CbErr where
  | invalidState
  | upstream
deriving DecidableEq, Repr

/-- HTTP status reported for each `CbErr`. -/
def CbErr.status : CbErr → Nat
  | .invalidState => 400
  | .upstream => 500

/-- Python truthiness of the optional `code`/`state` query parameters
(`not code` is true for `None` and for the empty string). -/
def optStrFalsy : Option PyStr → Bool
  | none => true
  | some s => s.isEmpty

/-- Dict upsert `d[k] = v` on an association list. -/
def dictInsert (k : PyStr) (v : α) (d : List (PyStr × α)) : List (PyStr × α) :=
  (k, v) :: d.filter (fun p => !(p.1 == k))

/-- `auth_callback(code, state)` from main.py lines 69-94.  The global
`PKCE_STORE` and `TOKEN_STORE` are passed and returned explicitly; the pair's
first component is the PKCE store after the call (mutated by `.pop` before
any network call, so it is updated even when the call then fails).  On
success the payload is the new token store and the user id embedded in the
redirect. -/
def auth_callback (code state : Option PyStr)
    (pkce : List (PyStr × PkceEntry)) (tokenStore : List (PyStr × TokenRec))
    (exchange : PyStr → PyStr → Except Unit Tokens)
    (fetchMe : PyStr → Except Unit SpotifyUser) (now : ℚ) :
    List (PyStr × PkceEntry) × Except CbErr (List (PyStr × TokenRec) × PyStr) :=
  match code, state with
  | some c, some s =>
    if c.isEmpty || s.isEmpty then (pkce, .error .invalidState)
    else
      match pkce.lookup s with
      | none => (pkce, .error .invalidState)
      | some entry =>
        -- `PKCE_STORE.pop(state)` — the entry is gone from here on.
        let pkce' := pkce.filter (fun p => !(p.1 == s))
        match exchange c entry.verifier with
        | .error _ => (pkce', .error .upstream)
        | .ok toks =>
          match fetchMe toks.access_token with
          | .error _ => (pkce', .error .upstream)
          | .ok user =>
            let key := "spotify:".data ++ user.id
            let record : TokenRec :=
              { access_token := toks.access_token
                refresh_token := toks.refresh_token
                exp_ts := now + toks.expires_in.getD 3600
                user_id := user.id
                display_name := user.display_name }
            (pkce', .ok (dictInsert key record tokenStore, user.id))
  | _, _ => (pkce, .error .invalidState)

/-! ### Audio-feature fetch (`fetch_audio_features`, main.py lines 234-274) -/

/-- One element of the `audio_features` array of a successful chunk
response; `none` models a JSON `null` entry. -/
structure AFItem where
  id : Option PyStr := none
  af : AF := {}
deriving Repr

/-- Answer of one chunk request against `/v1/audio-features`.  `s401` is a
401 status, `s403` a 403, `sErr` any other raised error (non-2xx via
`raise_for_status`, network failure, JSON decode), `ok` a parsed payload. -/
inductive ChunkResp where
  | s401
  | s403
  | sErr
  | ok (items : List (Option AFItem))

/-- Is a chunk answer the successful case? -/
def ChunkResp.isOk : ChunkResp → Bool
  | .ok _ => true
  | _ => false

/-- `ids[i:i+100]` chunking: split a list into runs of at most 100. -/
def chunks100 (l : List α) : List (List α) :=
  if l.isEmpty then [] else l.take 100 :: chunks100 (l.drop 100)
termination_by l.length
decreasing_by
  simp only [List.length_drop]
  cases l with
  | nil => simp_all
  | cons a as => simp only [List.length_cons]; omega

/-- The `for x in payload.get("audio_features", []) or []` accumulation:
insert every non-null item with a truthy id (main.py lines 267-269). -/
def insertItems (acc : List (PyStr × AF)) : List (Option AFItem) → List (PyStr × AF)
  | [] => acc
  | none :: rest => insertItems acc rest
  | some x :: rest =>
    match x.id with
    | none => insertItems acc rest
    | some i =>
      if i.isEmpty then insertItems acc rest
      else insertItems (dictInsert i x.af acc) rest

/-- The chunk loop of `fetch_audio_features`.  A 401 answer raises
`HTTPException` *inside* the `try`, so the bare `except Exception` catches it
and returns `{}` — exactly like the 403 short-circuit and any other raised
error.  Only a fully successful chunk extends the accumulator. -/
def afLoop (respond : List PyStr → ChunkResp) :
    List (List PyStr) → List (PyStr × AF) → List (PyStr × AF)
  | [], acc => acc
  | c :: cs, acc =>
    match respond c with
    | .s401 => []
    | .s403 => []
    | .sErr => []
    | .ok items => afLoop respond cs (insertItems acc items)

/-- `fetch_audio_features(token, ids)` from main.py lines 234-274, returning
the feature map together with the list of chunk requests actually issued. -/
def fetch_audio_features (respond : List PyStr → ChunkResp) (ids : List PyStr) :
    List (PyStr × AF) × List (List PyStr) :=
  if ids.isEmpty then ([], [])
  else (afLoop respond (chunks100 ids) [], chunks100 ids)

/-! ### Track resolution (`vibe_generate_llm` step 3, main.py lines 336-371) -/

/-- One LLM suggestion `{title, artist, query}`. -/
structure Suggestion where
  title : PyStr := []
  artist : PyStr := []
  query : PyStr
deriving Repr

/-- Answer of one single-result track search.  `err` covers both raised
errors and the in-`try` 401 raise (caught by `except Exception: continue`,
so both just skip the suggestion); `noHits` is an empty `items` array;
`hit t` is the first item. -/
inductive SearchOutcome where
  | err
  | noHits
  | hit (t : Track)

/-- The search-and-dedupe loop of `vibe_generate_llm` (main.py lines
339-371): strip double quotes and whitespace from each query, skip blanks,
skip failed or empty searches, skip already-seen track ids, and stop as soon
as `thr` results are collected (`if len(results) >= max(body.count, 20):
break`). -/
def resolveLoop (search : PyStr → SearchOutcome) (thr : Nat) :
    List Suggestion → List PyStr → List Track → List Track
  | [], _, acc => acc
  | s :: rest, seen, acc =>
    let q := pyTrim (pyRemoveAll '"' s.query)
    if q.isEmpty then resolveLoop search thr rest seen acc
    else
      match search q with
      | .err => resolveLoop search thr rest seen acc
      | .noHits => resolveLoop search thr rest seen acc
      | .hit t =>
        if seen.contains t.id then resolveLoop search thr rest seen acc
        else
          let acc' := acc ++ [t]
          if thr ≤ acc'.length then acc'
          else resolveLoop search thr rest (t.id :: seen) acc'

/-- Step 3 of `vibe_generate_llm`: resolve the suggestion list against the
search endpoint with threshold `max(count, 20)`. -/
def resolveTracks (search : PyStr → SearchOutcome) (count : Nat)
    (suggestions : List Suggestion) : List Track :=
  resolveLoop search (max count 20) suggestions [] []

/-- The sequence of successful hits of the loop, in suggestion order and
before any dedup/early-stop: the reference stream the claims compare
against. -/
def resolveHits (search : PyStr → SearchOutcome) : List Suggestion → List Track
  | [] => []
  | s :: rest =>
    let q := pyTrim (pyRemoveAll '"' s.query)
    if q.isEmpty then resolveHits search rest
    else
      match search q with
      | .hit t => t :: resolveHits search rest
      | _ => resolveHits search rest

/-- First-seen-order dedup of tracks by id, skipping ids already in `seen`. -/
def dedupFirstBy (seen : List PyStr) : List Track → List Track
  | [] => []
  | t :: ts =>
    if seen.contains t.id then dedupFirstBy seen ts
    else t :: dedupFirstBy (t.id :: seen) ts

/-! ### Ranking (`vibe_generate_llm` step 4, main.py lines 384-385) -/

/-- Stable descending insertion by key `f`: `x` goes in front of the first
element whose key is ≤ its own, i.e. after every strictly greater key and
every equal key already in place. -/
def insertDesc (f : α → ℚ) (x : α) : List α → List α
  | [] => [x]
  | y :: ys => if f y ≤ f x then x :: y :: ys else y :: insertDesc f x ys

/-- Stable descending sort by key `f`.  This models Python's
`sorted(results, key=..., reverse=True)`: CPython's sort is stable and
`reverse=True` keeps equal-key elements in input order, so its output is the
unique permutation that is sorted descending and key-stable — the three
properties proved of `sortDesc` below, which therefore pin down the same
function. -/
def sortDesc (f : α → ℚ) : List α → List α
  | [] => []
  | x :: xs => insertDesc f x (sortDesc f xs)

/-- `ranked = sorted(results, key=lambda t: score_track(t, af_map.get(t["id"]),
ctx), reverse=True)[:count]` — main.py lines 384-385. -/
def rank_candidates (afMap : PyStr → Option AF) (ctx : Ctx) (count : Nat)
    (results : List Track) : List Track :=
  (sortDesc (fun t => score_track t (afMap t.id) ctx) results).take count

/-! ### Playlist creation (`create_playlist_from_tracks`, main.py lines 399-435) -/

/-- Request body of `/playlist/create_from_tracks`. -/
structure CreatePlaylistIn where
  user : PyStr
  name : PyStr := []
  description : Option PyStr := none
  public : Bool := true
  trackUris : List PyStr
deriving Repr

/-- Successful answer of the playlist-create call. -/
structure CreatedPlaylist where
  id : PyStr
  url : PyStr := []
deriving DecidableEq, Repr

/-- Answer of a Spotify write call: 401, another raised error, or success. -/
inductive SpResp (α : Type) where
  | s401
  | sErr
  | ok (a : α)

/-- Errors of `create_playlist_from_tracks`: `notLoggedIn` and `reauth` are
the 401 `HTTPException`s, `upstream` any `raise_for_status` failure. -/
inductive PlErr where
  | notLoggedIn
  | reauth
  | upstream
deriving DecidableEq, Repr

/-- Endpoint result `{playlistId, url, added}`. -/
structure PlaylistOut where
  playlistId : PyStr
  url : PyStr
  added : Nat
deriving DecidableEq, Repr

/-- The sequential track-append loop (main.py lines 424-433). -/
def addLoop (addResp : List PyStr → SpResp Unit) : List (List PyStr) → Except PlErr Unit
  | [] => .ok ()
  | c :: cs =>
    match addResp c with
    | .s401 => .error .reauth
    | .sErr => .error .upstream
    | .ok _ => addLoop addResp cs

/-- `create_playlist_from_tracks(body)` from main.py lines 399-435:
look up the credential record, create the playlist (always, before looking
at the URIs), filter `trackUris` to the `spotify:track:` scheme, append the
valid ones in chunks of 100, and report `added = len(uris)` (the count of
valid URIs). -/
def create_playlist_from_tracks (tokenStore : List (PyStr × TokenRec))
    (body : CreatePlaylistIn) (createResp : SpResp CreatedPlaylist)
    (addResp : PyStr → List PyStr → SpResp Unit) : Except PlErr PlaylistOut :=
  match tokenStore.lookup ("spotify:".data ++ body.user) with
  | none => .error .notLoggedIn
  | some _ =>
    match createResp with
    | .s401 => .error .reauth
    | .sErr => .error .upstream
    | .ok pl =>
      let uris := body.trackUris.filter (fun u => strStartsWith u "spotify:track:".data)
      match addLoop (addResp pl.id) (chunks100 uris) with
      | .error e => .error e
      | .ok _ => .ok { playlistId := pl.id, url := pl.url, added := uris.length }

/-! ### Auxiliary predicates and concrete fixtures -/

/-- The three feature values `score_track` reads (with their 0.5 defaults)
all lie in `[0,1]`. -/
def afInRange (af : AF) : Prop :=
  0 ≤ af.energy.getD 0.5 ∧ af.energy.getD 0.5 ≤ 1 ∧
  0 ≤ af.valence.getD 0.5 ∧ af.valence.getD 0.5 ≤ 1 ∧
  0 ≤ af.danceability.getD 0.5 ∧ af.danceability.getD 0.5 ≤ 1

instance (af : AF) : Decidable (afInRange af) := by
  unfold afInRange; infer_instance

/-- Concrete token-exchange oracle that always succeeds. -/
def okExchange : PyStr → PyStr → Except Unit Tokens :=
  fun _ _ => .ok { access_token := "tok".data }

/-- Concrete profile-fetch oracle that always succeeds. -/
def okFetchMe : PyStr → Except Unit SpotifyUser :=
  fun _ => .ok { id := "u".data }

/-- Concrete audio-feature chunk oracle that always raises. -/
def failChunk : List PyStr → ChunkResp :=
  fun _ => .sErr

/-- Concrete track-append oracle that always succeeds. -/
def allOkAdd : PyStr → List PyStr → SpResp Unit :=
  fun _ _ => .ok ()

/-- A concrete credential record. -/
def testTok : TokenRec := { access_token := "t".data }

/-- A concrete ranking context whose profile comes from
`target_audio_profile`. -/
def ctxParty : Ctx :=
  { top_artists := [], liked_artists := [], profile := target_audio_profile "party".data }

/-! ## Theorems

First the generic lemmas about the stable descending sort, the dedup loop
and the chunked loops; then one theorem per specification claim (C1–C10),
each with a witness where it has hypotheses. -/

theorem insertDesc_perm (f : α → ℚ) (x : α) :
    ∀ l : List α, (insertDesc f x l).Perm (x :: l)
  | [] => List.Perm.refl _
  | y :: ys => by
    simp only [insertDesc]
    by_cases h : f y ≤ f x
    · rw [if_pos h]
    · rw [if_neg h]
      exact ((insertDesc_perm f x ys).cons y).trans (List.Perm.swap x y ys)

theorem sortDesc_perm (f : α → ℚ) : ∀ l : List α, (sortDesc f l).Perm l
  | [] => List.Perm.refl _
  | x :: xs =>
    (insertDesc_perm f x (sortDesc f xs)).trans ((sortDesc_perm f xs).cons x)

theorem insertDesc_pairwise (f : α → ℚ) (x : α) :
    ∀ l : List α, l.Pairwise (fun a b => f b ≤ f a) →
      (insertDesc f x l).Pairwise (fun a b => f b ≤ f a)
  | [], _ => by simp [insertDesc]
  | y :: ys, h => by
    simp only [insertDesc]
    have hy := (List.pairwise_cons.mp h).1
    have hys := (List.pairwise_cons.mp h).2
    by_cases hle : f y ≤ f x
    · rw [if_pos hle]
      refine List.pairwise_cons.mpr ⟨?_, h⟩
      intro z hz
      rcases List.mem_cons.mp hz with rfl | hz
      · exact hle
      · exact le_trans (hy z hz) hle
    · rw [if_neg hle]
      refine List.pairwise_cons.mpr ⟨?_, insertDesc_pairwise f x ys hys⟩
      intro z hz
      rcases List.mem_cons.mp ((insertDesc_perm f x ys).mem_iff.mp hz) with rfl | hz
      · exact le_of_not_le hle
      · exact hy z hz

theorem sortDesc_pairwise (f : α → ℚ) :
    ∀ l : List α, (sortDesc f l).Pairwise (fun a b => f b ≤ f a)
  | [] => List.Pairwise.nil
  | x :: xs => insertDesc_pairwise f x _ (sortDesc_pairwise f xs)

theorem filter_insertDesc_pos (f : α → ℚ) (x : α) (q : ℚ) (hx : f x = q) :
    ∀ l : List α, (insertDesc f x l).filter (fun y => decide (f y = q))
      = x :: l.filter (fun y => decide (f y = q))
  | [] => by simp [insertDesc, hx]
  | y :: ys => by
    simp only [insertDesc]
    by_cases h : f y ≤ f x
    · rw [if_pos h]
      simp [List.filter_cons, hx]
    · rw [if_neg h]
      have hyq : ¬ (f y = q) := fun e => h (le_of_eq (hx ▸ e))
      simp [List.filter_cons, hyq, filter_insertDesc_pos f x q hx ys]

theorem filter_insertDesc_neg (f : α → ℚ) (x : α) (q : ℚ) (hx : ¬ (f x = q)) :
    ∀ l : List α, (insertDesc f x l).filter (fun y => decide (f y = q))
      = l.filter (fun y => decide (f y = q))
  | [] => by simp [insertDesc, hx]
  | y :: ys => by
    simp only [insertDesc]
    by_cases h : f y ≤ f x
    · rw [if_pos h]
      simp [List.filter_cons, hx]
    · rw [if_neg h]
      simp [List.filter_cons, filter_insertDesc_neg f x q hx ys]

theorem sortDesc_filter (f : α → ℚ) (q : ℚ) :
    ∀ l : List α, (sortDesc f l).filter (fun y => decide (f y = q))
      = l.filter (fun y => decide (f y = q))
  | [] => rfl
  | x :: xs => by
    simp only [sortDesc]
    by_cases hx : f x = q
    · rw [filter_insertDesc_pos f x q hx, sortDesc_filter f q xs]
      simp [List.filter_cons, hx]
    · rw [filter_insertDesc_neg f x q hx, sortDesc_filter f q xs]
      simp [List.filter_cons, hx]

/-- C4: the ranker sorts resolved candidates in descending score order with
a stable sort — the sorted list is a permutation of the input, equal-score
candidates keep their input order (the score-`q` slice of the full sort
equals the input's, and the truncated output's slice is a sublist of it),
and the result is the sort truncated to the requested count. -/
theorem ranker_stable_sort (afMap : PyStr → Option AF) (ctx : Ctx) (count : Nat)
    (results : List Track) :
    rank_candidates afMap ctx count results
        = (sortDesc (fun t => score_track t (afMap t.id) ctx) results).take count
    ∧ (sortDesc (fun t => score_track t (afMap t.id) ctx) results).Perm results
    ∧ (rank_candidates afMap ctx count results).Pairwise
        (fun a b => score_track b (afMap b.id) ctx ≤ score_track a (afMap a.id) ctx)
    ∧ (∀ q : ℚ,
        (sortDesc (fun t => score_track t (afMap t.id) ctx) results).filter
            (fun t => decide (score_track t (afMap t.id) ctx = q))
          = results.filter (fun t => decide (score_track t (afMap t.id) ctx = q)))
    ∧ (∀ q : ℚ,
        ((rank_candidates afMap ctx count results).filter
            (fun t => decide (score_track t (afMap t.id) ctx = q))).Sublist
          (results.filter (fun t => decide (score_track t (afMap t.id) ctx = q))))
    ∧ (rank_candidates afMap ctx count results).length = min count results.length := by
  refine ⟨rfl, sortDesc_perm _ _, ?_, fun q => sortDesc_filter _ q _, ?_, ?_⟩
  · exact List.Pairwise.sublist (List.take_sublist _ _) (sortDesc_pairwise _ _)
  · intro q
    have h1 : (rank_candidates afMap ctx count results).Sublist
        (sortDesc (fun t => score_track t (afMap t.id) ctx) results) :=
      List.take_sublist _ _
    have h2 := h1.filter (fun t => decide (score_track t (afMap t.id) ctx = q))
    rw [sortDesc_filter] at h2
    exact h2
  · rw [rank_candidates, List.length_take, (sortDesc_perm _ _).length_eq]

theorem contains_eq_false_iff (l : List PyStr) (a : PyStr) :
    l.contains a = false ↔ a ∉ l := by
  simp

theorem resolveLoop_eq (search : PyStr → SearchOutcome) (thr : Nat) :
    ∀ (sgs : List Suggestion) (seen : List PyStr) (acc : List Track),
      acc.length < thr →
      resolveLoop search thr sgs seen acc
        = acc ++ (dedupFirstBy seen (resolveHits search sgs)).take (thr - acc.length) := by
  intro sgs
  induction sgs with
  | nil => intro seen acc _; simp [resolveLoop, resolveHits, dedupFirstBy]
  | cons s rest ih =>
    intro seen acc hlt
    simp only [resolveLoop, resolveHits]
    by_cases hq : (pyTrim (pyRemoveAll '"' s.query)).isEmpty
    · rw [if_pos hq, if_pos hq]
      exact ih seen acc hlt
    · rw [if_neg hq, if_neg hq]
      cases hs : search (pyTrim (pyRemoveAll '"' s.query)) with
      | err => exact ih seen acc hlt
      | noHits => exact ih seen acc hlt
      | hit t =>
        dsimp only
        by_cases hseen : seen.contains t.id
        · rw [if_pos hseen]
          simp only [dedupFirstBy, hseen, if_true]
          exact ih seen acc hlt
        · rw [if_neg hseen]
          simp only [dedupFirstBy, hseen, if_false, Bool.false_eq_true]
          have htake : thr - acc.length = (thr - (acc.length + 1)) + 1 := by omega
          rw [htake, List.take_succ_cons]
          by_cases hbr : thr ≤ (acc ++ [t]).length
          · rw [if_pos hbr]
            have h0 : thr - (acc.length + 1) = 0 := by
              simp only [List.length_append, List.length_cons, List.length_nil] at hbr
              omega
            rw [h0, List.take_zero]
          · rw [if_neg hbr]
            have hlt' : (acc ++ [t]).length < thr := Nat.lt_of_not_le hbr
            rw [ih (t.id :: seen) (acc ++ [t]) hlt']
            simp only [List.length_append, List.length_cons, List.length_nil,
              List.append_assoc, List.singleton_append]

theorem dedupFirstBy_id_nodup :
    ∀ (l : List Track) (seen : List PyStr),
      ((dedupFirstBy seen l).map Track.id).Nodup ∧
        ∀ i ∈ seen, i ∉ (dedupFirstBy seen l).map Track.id
  | [], seen => by simp [dedupFirstBy]
  | t :: ts, seen => by
    simp only [dedupFirstBy]
    by_cases hseen : seen.contains t.id
    · rw [if_pos hseen]
      exact dedupFirstBy_id_nodup ts seen
    · rw [if_neg hseen]
      have hid : t.id ∉ seen := (contains_eq_false_iff seen t.id).mp (by simpa using hseen)
      obtain ⟨hnodup, hnot⟩ := dedupFirstBy_id_nodup ts (t.id :: seen)
      refine ⟨?_, ?_⟩
      · simp only [List.map_cons, List.nodup_cons]
        exact ⟨hnot t.id (List.mem_cons_self _ _), hnodup⟩
      · intro i hi
        simp only [List.map_cons, List.mem_cons, not_or]
        exact ⟨fun e => hid (e ▸ hi), hnot i (List.mem_cons_of_mem _ hi)⟩

/-- C3: the track resolver never returns two candidates with the same
catalog id, its output is exactly the first-seen-order dedup of the
successful search hits truncated at `max(count, 20)`, and its length never
exceeds that early-stop threshold. -/
theorem resolver_dedup_early_stop (search : PyStr → SearchOutcome) (count : Nat)
    (sgs : List Suggestion) :
    resolveTracks search count sgs
        = (dedupFirstBy [] (resolveHits search sgs)).take (max count 20)
    ∧ ((resolveTracks search count sgs).map Track.id).Nodup
    ∧ (resolveTracks search count sgs).length ≤ max count 20 := by
  have hpos : (0 : Nat) < max count 20 :=
    Nat.lt_of_lt_of_le (by norm_num) (Nat.le_max_right count 20)
  have heq : resolveTracks search count sgs
      = (dedupFirstBy [] (resolveHits search sgs)).take (max count 20) := by
    rw [resolveTracks, resolveLoop_eq search (max count 20) sgs [] [] hpos]
    simp
  refine ⟨heq, ?_, ?_⟩
  · rw [heq, List.map_take]
    exact List.Nodup.sublist (List.take_sublist _ _)
      (dedupFirstBy_id_nodup (resolveHits search sgs) []).1
  · rw [heq]
    exact List.length_take_le _ _

theorem chunks100_nil : chunks100 ([] : List α) = [] := by
  unfold chunks100
  rfl

theorem chunks100_of_small (l : List α) (h0 : l ≠ []) (h : l.length ≤ 100) :
    chunks100 l = [l] := by
  unfold chunks100
  rw [if_neg (by simpa using h0), List.take_of_length_le h, List.drop_eq_nil_of_le h,
    chunks100_nil]

theorem afLoop_fail_empty (respond : List PyStr → ChunkResp) :
    ∀ (cs : List (List PyStr)) (acc : List (PyStr × AF)),
      (∃ c ∈ cs, (respond c).isOk = false) → afLoop respond cs acc = []
  | [], _, h => by simp at h
  | c :: cs, acc, h => by
    simp only [afLoop]
    cases hr : respond c with
    | s401 => rfl
    | s403 => rfl
    | sErr => rfl
    | ok items =>
      obtain ⟨c', hc', hfail⟩ := h
      rcases List.mem_cons.mp hc' with rfl | hc'
      · rw [hr] at hfail
        simp [ChunkResp.isOk] at hfail
      · exact afLoop_fail_empty respond cs _ ⟨c', hc', hfail⟩

/-- C2: the audio-feature fetch is all-or-nothing — the empty id list yields
the empty mapping with no chunk request issued, and if any chunk of the
batched fetch fails (401, 403, or any other raised error) the entire result
is the empty mapping, never the partial data of earlier chunks. -/
theorem audio_features_all_or_nothing (respond : List PyStr → ChunkResp) :
    fetch_audio_features respond [] = ([], [])
    ∧ (∀ ids : List PyStr, (∃ c ∈ chunks100 ids, (respond c).isOk = false) →
        (fetch_audio_features respond ids).1 = []) := by
  constructor
  · rfl
  · intro ids h
    by_cases hids : ids.isEmpty
    · simp [fetch_audio_features, hids]
    · simp only [fetch_audio_features, hids, Bool.false_eq_true, if_false]
      exact afLoop_fail_empty respond _ [] h

/-- Witness for C2: a one-chunk fetch whose single request raises collapses
to the empty mapping. -/
theorem audio_features_all_or_nothing_witness :
    (∃ c ∈ chunks100 (["a".data] : List PyStr), (failChunk c).isOk = false)
    ∧ (fetch_audio_features failChunk ["a".data]).1 = [] := by
  have hmem : ∃ c ∈ chunks100 (["a".data] : List PyStr), (failChunk c).isOk = false := by
    refine ⟨["a".data], ?_, rfl⟩
    rw [chunks100_of_small _ (by simp) (by simp)]
    simp
  exact ⟨hmem, (audio_features_all_or_nothing failChunk).2 ["a".data] hmem⟩

theorem addLoop_ok (addOne : List PyStr → SpResp Unit)
    (hok : ∀ chunk, addOne chunk = .ok ()) :
    ∀ cs : List (List PyStr), addLoop addOne cs = .ok ()
  | [] => rfl
  | c :: cs => by
    simp only [addLoop, hok c]
    exact addLoop_ok addOne hok cs

/-- C5: playlist creation filters the given URIs to the `spotify:track:`
scheme before batching (invalid entries silently dropped), the playlist is
created even when zero valid URIs remain, and the reported `added` count is
the number of valid URIs. -/
theorem playlist_create_filters_and_counts (tokenStore : List (PyStr × TokenRec))
    (body : CreatePlaylistIn) (tok : TokenRec) (pl : CreatedPlaylist)
    (hlogin : tokenStore.lookup ("spotify:".data ++ body.user) = some tok) :
    (∀ addResp : PyStr → List PyStr → SpResp Unit,
      (∀ pid chunk, addResp pid chunk = .ok ()) →
      create_playlist_from_tracks tokenStore body (.ok pl) addResp
        = .ok ⟨pl.id, pl.url,
            (body.trackUris.filter (fun u => strStartsWith u "spotify:track:".data)).length⟩)
    ∧ (body.trackUris.filter (fun u => strStartsWith u "spotify:track:".data) = [] →
        ∀ addResp : PyStr → List PyStr → SpResp Unit,
          create_playlist_from_tracks tokenStore body (.ok pl) addResp
            = .ok ⟨pl.id, pl.url, 0⟩) := by
  constructor
  · intro addResp hok
    simp only [create_playlist_from_tracks, hlogin]
    rw [addLoop_ok (addResp pl.id) (hok pl.id)]
  · intro hempty addResp
    simp only [create_playlist_from_tracks, hlogin, hempty]
    rw [chunks100_nil]
    rfl

/-- Witness for C5: one invalid and two valid URIs create the playlist and
report `added = 2` (the spec's own example). -/
theorem playlist_create_filters_and_counts_witness :
    ([("spotify:u".data, testTok)].lookup ("spotify:".data ++ "u".data) = some testTok)
    ∧ create_playlist_from_tracks [("spotify:u".data, testTok)]
        ⟨"u".data, "n".data, none, true,
          ["spotify:track:aaa".data, "bad:uri".data, "spotify:track:bbb".data]⟩
        (.ok ⟨"pid".data, "purl".data⟩) allOkAdd
      = .ok ⟨"pid".data, "purl".data, 2⟩ := by
  have hl : ([("spotify:u".data, testTok)].lookup ("spotify:".data ++ "u".data)
      = some testTok) := rfl
  refine ⟨hl, ?_⟩
  have h := (playlist_create_filters_and_counts [("spotify:u".data, testTok)]
      ⟨"u".data, "n".data, none, true,
        ["spotify:track:aaa".data, "bad:uri".data, "spotify:track:bbb".data]⟩
      testTok ⟨"pid".data, "purl".data⟩ hl).1 allOkAdd (fun _ _ => rfl)
  rw [h]
  rfl

theorem lookup_filter_key_none (l : List (PyStr × β)) (s : PyStr) :
    (l.filter (fun p => !(p.1 == s))).lookup s = none := by
  induction l with
  | nil => rfl
  | cons p ps ih =>
    rcases p with ⟨k, v⟩
    by_cases hk : k = s
    · subst hk
      simp [List.filter_cons, ih]
    · have hbeq : (k == s) = false := beq_eq_false_iff_ne.mpr hk
      have hbeq2 : (s == k) = false := beq_eq_false_iff_ne.mpr (Ne.symm hk)
      simp [List.filter_cons, hbeq, List.lookup, hbeq2, ih]

/-- C1: the authorization state is single-use — a callback with a missing
`code`, missing `state`, empty `code`/`state`, or a `state` absent from the
store fails with `InvalidState` (HTTP 400), and after a successful callback
the state entry is removed, so a second callback with the same state token
fails with `InvalidState`. -/
theorem auth_state_single_use (pkce : List (PyStr × PkceEntry))
    (ts : List (PyStr × TokenRec)) (exchange : PyStr → PyStr → Except Unit Tokens)
    (fetchMe : PyStr → Except Unit SpotifyUser) (now : ℚ) :
    (∀ st, auth_callback none st pkce ts exchange fetchMe now
        = (pkce, .error .invalidState))
    ∧ (∀ cd, auth_callback cd none pkce ts exchange fetchMe now
        = (pkce, .error .invalidState))
    ∧ (∀ st, auth_callback (some "".data) st pkce ts exchange fetchMe now
        = (pkce, .error .invalidState))
    ∧ (∀ c s, pkce.lookup s = none →
        auth_callback (some c) (some s) pkce ts exchange fetchMe now
          = (pkce, .error .invalidState))
    ∧ CbErr.status .invalidState = 400
    ∧ (∀ cd s pkce' res,
        auth_callback cd (some s) pkce ts exchange fetchMe now = (pkce', .ok res) →
        ∀ cd2 ts2 ex2 me2 now2,
          auth_callback cd2 (some s) pkce' ts2 ex2 me2 now2
            = (pkce', .error .invalidState)) := by
  refine ⟨?_, ?_, ?_, ?_, rfl, ?_⟩
  · intro st
    cases st <;> rfl
  · intro cd
    cases cd <;> rfl
  · intro st
    cases st <;> rfl
  · intro c s hlook
    simp [auth_callback, hlook]
  · intro cd s pkce' res h cd2 ts2 ex2 me2 now2
    have hp : pkce' = pkce.filter (fun p => !(p.1 == s)) := by
      cases cd with
      | none => simp [auth_callback] at h
      | some c =>
        simp only [auth_callback] at h
        split at h
        · simp at h
        · split at h
          · simp at h
          · split at h
            · simp at h
            · split at h
              · simp at h
              · simp only [Prod.mk.injEq] at h
                exact h.1.symm
    subst hp
    cases cd2 with
    | none => rfl
    | some c2 =>
      by_cases hc : (c2.isEmpty || s.isEmpty) = true
      · simp [auth_callback, hc]
      · simp [auth_callback, hc, lookup_filter_key_none]

/-- Witness for C1: a concrete successful callback consumes its state entry,
and replaying the same state token then fails with `InvalidState`. -/
theorem auth_state_single_use_witness :
    auth_callback (some "c".data) (some "s".data) [("s".data, ⟨"v".data, 0⟩)] []
        okExchange okFetchMe 0
      = ([], .ok ([("spotify:u".data, ⟨"tok".data, none, 0 + 3600, "u".data, none⟩)],
          "u".data))
    ∧ auth_callback (some "c2".data) (some "s".data) [] [] okExchange okFetchMe 0
      = ([], .error .invalidState) := by
  have h1 : auth_callback (some "c".data) (some "s".data) [("s".data, ⟨"v".data, 0⟩)] []
      okExchange okFetchMe 0
      = ([], .ok ([("spotify:u".data, ⟨"tok".data, none, 0 + 3600, "u".data, none⟩)],
          "u".data)) := rfl
  refine ⟨h1, ?_⟩
  exact (auth_state_single_use [("s".data, ⟨"v".data, 0⟩)] [] okExchange okFetchMe 0).2.2.2.2.2
    (some "c".data) "s".data [] _ h1 (some "c2".data) [] okExchange okFetchMe 0

/-- C6: a track whose artist names hit both the top-artist set and the
liked-artist taste set, with no feature vector, scores exactly `3.5`
(`2.0 + 1.5`, the three feature terms omitted). -/
theorem score_both_overlaps_no_features (t : Track) (ctx : Ctx)
    (htop : ((pySplitChar ',' t.artist).map (fun a => pyLower (pyTrim a))).any
        (fun a => ctx.top_artists.contains a) = true)
    (hliked : ((pySplitChar ',' t.artist).map (fun a => pyLower (pyTrim a))).any
        (fun a => ctx.liked_artists.contains a) = true) :
    score_track t none ctx = 3.5 := by
  simp only [score_track, htop, hliked, if_true]
  norm_num

/-- Witness for C6: "Drake, Rihanna" with "drake" a top artist and
"rihanna" a liked artist scores `3.5` without features. -/
theorem score_both_overlaps_no_features_witness :
    (((pySplitChar ',' "Drake, Rihanna".data).map (fun a => pyLower (pyTrim a))).any
        (fun a => (["drake".data] : List PyStr).contains a) = true)
    ∧ (((pySplitChar ',' "Drake, Rihanna".data).map (fun a => pyLower (pyTrim a))).any
        (fun a => (["rihanna".data] : List PyStr).contains a) = true)
    ∧ score_track ⟨"x".data, [], [], "Drake, Rihanna".data⟩ none
        ⟨["drake".data], ["rihanna".data], target_audio_profile []⟩ = 3.5 :=
  ⟨by decide, by decide,
    score_both_overlaps_no_features ⟨"x".data, [], [], "Drake, Rihanna".data⟩
      ⟨["drake".data], ["rihanna".data], target_audio_profile []⟩ (by decide) (by decide)⟩

/-- C7: rules apply in fixed order with later rules overwriting earlier
fields — for "moody happy" the happy rule (last) wins on valence (`0.8`)
while the moody rule's energy (`0.55`) survives untouched. -/
theorem target_profile_moody_happy :
    (target_audio_profile "moody happy".data).target_valence = 0.8
    ∧ (target_audio_profile "moody happy".data).target_energy = 0.55 := by
  have c1 : (strContains (pyLower "moody happy".data) "night drive".data
      || strContains (pyLower "moody happy".data) "moody".data) = true := by decide
  have c2 : (strContains (pyLower "moody happy".data) "chill".data
      || strContains (pyLower "moody happy".data) "lofi".data) = false := by decide
  have c3 : (strContains (pyLower "moody happy".data) "party".data
      || strContains (pyLower "moody happy".data) "dance".data) = false := by decide
  have c4 : strContains (pyLower "moody happy".data) "happy".data = true := by decide
  refine ⟨?_, ?_⟩ <;> simp [target_audio_profile, c1, c2, c3, c4] <;> norm_num

/-- C8: a vibe text whose lower-cased form contains none of the genre
keywords parses with `include_genres = ["pop"]`. -/
theorem heuristic_no_genre_default_pop (vibe : PyStr) (ea : Bool)
    (h : ∀ k ∈ ([ "chill".data, "lofi".data, "study".data, "focus".data,
        "party".data, "dance".data] : List PyStr),
      strContains (pyLower vibe) k = false) :
    (heuristic_parse vibe ea).includeGenres = ["pop".data] := by
  have h1 := h "chill".data (by simp)
  have h2 := h "lofi".data (by simp)
  have h3 := h "study".data (by simp)
  have h4 := h "focus".data (by simp)
  have h5 := h "party".data (by simp)
  have h6 := h "dance".data (by simp)
  simp [heuristic_parse, pySetList, h1, h2, h3, h4, h5, h6]

/-- Witness for C8: "moody" matches no genre keyword and parses to
`["pop"]`. -/
theorem heuristic_no_genre_default_pop_witness :
    (∀ k ∈ ([ "chill".data, "lofi".data, "study".data, "focus".data,
        "party".data, "dance".data] : List PyStr),
      strContains (pyLower "moody".data) k = false)
    ∧ (heuristic_parse "moody".data true).includeGenres = ["pop".data] :=
  ⟨by decide, heuristic_no_genre_default_pop "moody".data true (by decide)⟩

/-- C9: with no language-model API key configured, the AI vibe-parse entry
point returns exactly the heuristic parser's result, for every vibe text,
explicit flag and LLM oracle. -/
theorem vibe_parse_ai_no_key_eq_heuristic
    (llm : PyStr → Bool → Except Unit (Option LLMVibeData)) (vibe : PyStr) (ea : Bool) :
    vibe_parse_ai none llm vibe ea = .ok (heuristic_parse vibe ea) :=
  rfl

theorem target_profile_range (v : PyStr) :
    (0 ≤ (target_audio_profile v).target_energy
      ∧ (target_audio_profile v).target_energy ≤ 1)
    ∧ (0 ≤ (target_audio_profile v).target_valence
      ∧ (target_audio_profile v).target_valence ≤ 1)
    ∧ (0 ≤ (target_audio_profile v).target_danceability
      ∧ (target_audio_profile v).target_danceability ≤ 1) := by
  simp only [target_audio_profile]
  split_ifs <;> norm_num

/-- C10: with a profile produced by `target_audio_profile` and feature
values in `[0,1]`, the score lies in `[0, 6.5]`; with no feature vector the
score is one of `{0, 1.5, 2, 3.5}`. -/
theorem score_track_bounded (t : Track) (v : PyStr) (ctx : Ctx)
    (hprof : ctx.profile = target_audio_profile v) :
    (∀ af : AF, afInRange af →
      0 ≤ score_track t (some af) ctx ∧ score_track t (some af) ctx ≤ 6.5)
    ∧ (score_track t none ctx = 0 ∨ score_track t none ctx = 1.5
        ∨ score_track t none ctx = 2 ∨ score_track t none ctx = 3.5) := by
  constructor
  · intro af haf
    obtain ⟨he0, he1, hv0, hv1, hd0, hd1⟩ := haf
    obtain ⟨⟨pe0, pe1⟩, ⟨pv0, pv1⟩, ⟨pd0, pd1⟩⟩ := target_profile_range v
    rw [← hprof] at pe0 pe1 pv0 pv1 pd0 pd1
    have a1 : |af.energy.getD 0.5 - ctx.profile.target_energy| ≤ 1 :=
      abs_le.mpr ⟨by linarith, by linarith⟩
    have a2 : |af.valence.getD 0.5 - ctx.profile.target_valence| ≤ 1 :=
      abs_le.mpr ⟨by linarith, by linarith⟩
    have a3 : |af.danceability.getD 0.5 - ctx.profile.target_danceability| ≤ 1 :=
      abs_le.mpr ⟨by linarith, by linarith⟩
    have b1 : 0 ≤ |af.energy.getD 0.5 - ctx.profile.target_energy| := abs_nonneg _
    have b2 : 0 ≤ |af.valence.getD 0.5 - ctx.profile.target_valence| := abs_nonneg _
    have b3 : 0 ≤ |af.danceability.getD 0.5 - ctx.profile.target_danceability| :=
      abs_nonneg _
    simp only [score_track]
    split_ifs <;> constructor <;> norm_num <;> linarith
  · simp only [score_track]
    split_ifs <;>
      first
        | (left; norm_num; done)
        | (right; left; norm_num; done)
        | (right; right; left; norm_num; done)
        | (right; right; right; norm_num; done)

/-- Witness for C10: a concrete track, feature vector in range, and a
`target_audio_profile`-derived context give a score inside `[0, 6.5]`. -/
theorem score_track_bounded_witness :
    afInRange ⟨some 0.9, none, some 0.1⟩
    ∧ (0 ≤ score_track ⟨"i".data, [], [], []⟩ (some ⟨some 0.9, none, some 0.1⟩) ctxParty
        ∧ score_track ⟨"i".data, [], [], []⟩ (some ⟨some 0.9, none, some 0.1⟩) ctxParty
            ≤ 6.5) :=
  ⟨by norm_num [afInRange],
    (score_track_bounded ⟨"i".data, [], [], []⟩ "party".data ctxParty rfl).1
      ⟨some 0.9, none, some 0.1⟩ (by norm_num [afInRange])⟩

end Marina
